import Mathlib

/-!
Verification of the MineCP Server Orchestration Core.

Shallow embedding of the five core components of the backend
(`rcon_client.py`, `monitoring.py`, `backup_manager.py`,
`docker_manager.py`, `task_queue.py`), with theorems settling the
specification claims about them.

Bytes are modelled as `Nat` values below 256, machine 32-bit integers as
`Int` with explicit two's-complement conversion, Python `float`
arithmetic as exact rationals (`ℚ`) with an explicit half-even rounding
function mirroring `round(x, 2)`, and Python exceptions as `Except`
values threaded through the translated control flow.
-/

namespace MineCP

/-! ### RCON packet framing (`rcon_client.py`, `_send_packet` / `_receive_packet`) -/

/-- Little-endian 4-byte encoding of a 32-bit value, as produced by
`struct.pack('<i', n)` for `0 ≤ n < 2^31` (each byte is below 256). -/
def int32ToLE (n : Nat) : List Nat :=
  [n % 256, n / 256 % 256, n / 65536 % 256, n / 16777216 % 256]

/-- Signed little-endian 4-byte decoding, as performed by
`struct.unpack('<i', bs)`: values at or above `2^31` wrap to negatives. -/
def leToInt32 (bs : List Nat) : Int :=
  let v := bs.getD 0 0 + 256 * bs.getD 1 0 + 65536 * bs.getD 2 0 +
    16777216 * bs.getD 3 0
  if v < 2147483648 then (v : Int) else (v : Int) - 4294967296

/-- The bytes written by `RCONClient._send_packet` for one packet
(lines 81–86): `[size LE][request-id LE][type LE][payload][0x00 0x00]`
with `size = len(payload) + 10`. The request-id increment performed at
line 79 is part of the client state machine, modelled separately. -/
def packetBytes (requestId packetType : Nat) (payload : List Nat) : List Nat :=
  int32ToLE (payload.length + 10) ++ int32ToLE requestId ++
    int32ToLE packetType ++ payload ++ [0, 0]

/-- `RCONClient._receive_packet` on an incoming byte stream: read a
4-byte size header, read exactly `size` further bytes, split them as
`[request-id LE][type LE][payload][2 terminator bytes]`
(`packet_data[8:-2]`). `none` models the exception paths (stream too
short for the header or the body, or a body shorter than the 8 header
bytes `struct.unpack('<ii', ...)` requires). -/
def decodePacket (stream : List Nat) : Option (Int × Int × List Nat) :=
  if 4 ≤ stream.length then
    let size := leToInt32 (stream.take 4)
    if 0 ≤ size ∧ 8 ≤ size.toNat ∧ size.toNat ≤ (stream.drop 4).length then
      let body := (stream.drop 4).take size.toNat
      some (leToInt32 (body.take 4), leToInt32 ((body.drop 4).take 4),
        ((body.drop 8).dropLast).dropLast)
    else none
  else none

/-! ### Exact-byte receive loop (`RCONClient._receive_bytes`)

The peer is modelled by the byte stream it will deliver before closing
(`stream`) together with a fragmentation `schedule`: the `k`-th `recv`
call returns at most `schedule k` bytes (and never more than requested).
A zero entry, or an exhausted stream, is a zero-length read — the peer
has closed. An exhausted schedule while bytes are still owed models
`recv` blocking forever, returned as `none`. -/

/-- The loop of `_receive_bytes`:
`while len(data) < length: chunk = recv(length - len(data));
if not chunk: raise ConnectionError; data += chunk`.
`Except.error ()` is the raised `ConnectionError`. -/
def receiveBytesGo : List Nat → List Nat → Nat → List Nat →
    Option (Except Unit (List Nat))
  | [], _, need, acc =>
    if need ≤ acc.length then some (Except.ok acc) else none
  | s :: ss, stream, need, acc =>
    if need ≤ acc.length then some (Except.ok acc)
    else
      let chunk := stream.take (min (need - acc.length) s)
      if chunk.isEmpty then some (Except.error ())
      else receiveBytesGo ss (stream.drop chunk.length) need (acc ++ chunk)

/-- `RCONClient._receive_bytes(length)` against a peer described by
`schedule` and `stream`. -/
def receiveBytes (schedule stream : List Nat) (length : Nat) :
    Option (Except Unit (List Nat)) :=
  receiveBytesGo schedule stream length []

/-! ### RCON client state machine (`rcon_client.py`, `RCONClient`)

The network is abstracted by an environment recording how the peer
behaves during one exchange: whether the TCP `connect` call succeeds,
what the authentication response carries (`none` models a transport
exception while receiving it), and what a command response carries
(`none` models a transport exception during the command exchange).
Each operation returns its result together with the successor client
state and the list of packets the client transmitted. -/

/-- `RCONClient.PACKET_AUTH`. -/
def PACKET_AUTH : Nat := 3

/-- `RCONClient.PACKET_COMMAND`. -/
def PACKET_COMMAND : Nat := 2

/-- `RCONClient.PACKET_RESPONSE`. -/
def PACKET_RESPONSE : Nat := 0

/-- A packet transmitted by the client: its type field and payload. -/
structure SentPacket where
  ptype : Nat
  payload : String
  deriving DecidableEq, Repr

/-- Peer behaviour for one connect / command exchange. -/
structure REnv where
  /-- The TCP `socket.connect` call succeeds (otherwise it raises). -/
  connectOk : Bool
  /-- Request-id of the authentication response packet; `none` models a
  transport exception while receiving it. `-1` is the rejection value. -/
  authReply : Option Int
  /-- Payload of the command response packet; `none` models a transport
  exception during the command exchange. -/
  cmdReply : Option String
  deriving DecidableEq, Repr

/-- Mutable client state: whether `self.socket` is set, and the
`self.request_id` counter. -/
structure RState where
  sock : Bool
  reqId : Nat
  deriving DecidableEq, Repr

/-- A fresh client (`__init__`): no socket, request-id 0. -/
def RState.init : RState := ⟨false, 0⟩

/-- The request-id increment of `_send_packet` (line 79):
`(request_id + 1) % 2147483648`. -/
def nextReqId (n : Nat) : Nat := (n + 1) % 2147483648

/-- Result of `connect`. -/
structure ConnectRes where
  ok : Bool
  st : RState
  sent : List SentPacket
  deriving DecidableEq, Repr

/-- `RCONClient.connect`: open the socket, then `_authenticate`: send one
AUTH packet carrying the password and read one response. A transport
exception anywhere is caught, `disconnect` runs, and `False` is
returned. A response with request-id `-1` makes `_authenticate` return
`False` — but control returns normally, so the `except` branch of
`connect` does not run and the socket is left open. -/
def RCONClient.connect (env : REnv) (password : String) (st : RState) :
    ConnectRes :=
  if env.connectOk then
    -- `_authenticate`: `_send_packet(PACKET_AUTH, password)` then
    -- `_receive_packet()`
    let rid := nextReqId st.reqId
    match env.authReply with
    | none =>
      -- exception while receiving: caught in `connect`, `disconnect()`
      ⟨false, ⟨false, rid⟩, [⟨PACKET_AUTH, password⟩]⟩
    | some i =>
      if i = -1 then
        -- auth rejected: return False, socket stays open
        ⟨false, ⟨true, rid⟩, [⟨PACKET_AUTH, password⟩]⟩
      else
        ⟨true, ⟨true, rid⟩, [⟨PACKET_AUTH, password⟩]⟩
  else
    -- `socket.connect` raised: caught, `disconnect()`, return False
    ⟨false, ⟨false, st.reqId⟩, []⟩

/-- Result of `send_command`. -/
structure CmdRes where
  resp : Option String
  st : RState
  sent : List SentPacket
  deriving DecidableEq, Repr

/-- The `try` body of `send_command` once a socket exists:
`_send_packet(PACKET_COMMAND, command)` then `_receive_packet()`;
a transport exception is caught, `disconnect` runs, `None` returned. -/
def sendCommandOnSocket (env : REnv) (st : RState) (command : String) :
    CmdRes :=
  let rid := nextReqId st.reqId
  match env.cmdReply with
  | none => ⟨none, ⟨false, rid⟩, [⟨PACKET_COMMAND, command⟩]⟩
  | some resp => ⟨some resp, ⟨true, rid⟩, [⟨PACKET_COMMAND, command⟩]⟩

/-- `RCONClient.send_command`: `if not self.socket: if not self.connect():
return None`, then the command exchange. -/
def RCONClient.send_command (env : REnv) (password : String) (st : RState)
    (command : String) : CmdRes :=
  if st.sock then
    sendCommandOnSocket env st command
  else
    let c := RCONClient.connect env password st
    if c.ok then
      let r := sendCommandOnSocket env c.st command
      ⟨r.resp, r.st, c.sent ++ r.sent⟩
    else
      ⟨none, c.st, c.sent⟩

/-! ### Metrics collector (`monitoring.py`, `MetricsCollector`)

One instance's buffer is a list of `(timestamp, metrics)` pairs, oldest
first, mirroring the `deque(maxlen=720)` (front = index 0 = oldest,
`append` at the back). Timestamps are natural numbers (seconds); the
Python comparison `timestamp < now - timedelta(retention)` is expressed
without subtraction as `timestamp + retention < now`. The metrics
payload type is a parameter `M`. -/

/-- `deque(maxlen=720)` capacity (line 72: `720 * 5 sec = 1 hour`). -/
def METRICS_MAXLEN : Nat := 720

/-- `MetricsCollector(retention_seconds=3600)` default. -/
def DEFAULT_RETENTION : Nat := 3600

/-- The last `cap` elements of a list (what a `deque(maxlen=cap)` retains
after appends). -/
def takeLast {α : Type} (cap : Nat) (xs : List α) : List α :=
  xs.drop (xs.length - cap)

/-- `deque.append` under `maxlen=cap`: append at the back, evicting from
the front when the capacity is exceeded. -/
def dequeAppend {α : Type} (cap : Nat) (xs : List α) (x : α) : List α :=
  takeLast cap (xs ++ [x])

/-- `MetricsCollector._cleanup_old_metrics`: pop entries from the front
while the front timestamp is strictly older than `now - retention`,
stopping at the first young entry. -/
def cleanupOldMetrics {M : Type} (retention now : Nat) :
    List (Nat × M) → List (Nat × M)
  | [] => []
  | (t, m) :: rest =>
    if t + retention < now then cleanupOldMetrics retention now rest
    else (t, m) :: rest

/-- `MetricsCollector._store_metrics`: append `(now, metrics)` to the
instance's deque (creating it if absent; capacity `720`), then run the
age cleanup. -/
def storeMetrics {M : Type} (retention now : Nat) (buf : List (Nat × M))
    (metrics : M) : List (Nat × M) :=
  cleanupOldMetrics retention now (dequeAppend METRICS_MAXLEN buf (now, metrics))

/-- A whole collection run: fold `_store_metrics` over a sequence of
`(timestamp, metrics)` collection events, starting from an absent (empty)
buffer. -/
def runCollector {M : Type} (retention : Nat) (events : List (Nat × M)) :
    List (Nat × M) :=
  events.foldl (fun buf e => storeMetrics retention e.1 buf e.2) []

/-- `MetricsCollector.get_recent_metrics`: `list(buf)[-limit:]`, metrics
only. Mirrors the Python slice exactly: `[-0:]` is the whole list. -/
def getRecentMetrics {M : Type} (buf : List (Nat × M)) (limit : Nat) :
    List M :=
  (if limit = 0 then buf else takeLast limit buf).map Prod.snd

/-! ### Backup manager (`backup_manager.py`, `BackupManager.create_backup`)

The body of `create_backup` is one `try` block: an RCON session issuing
`save-off` and `save-all flush`, a fixed sleep, the backup-name
computation, `backup_path.parent.mkdir(...)`, the `tarfile` archival,
an RCON session issuing `save-on`, and `return backup_path`. The
`except` handler logs, best-effort issues `save-on` in a nested
`try/except: pass`, and returns `None`. The RCON helpers themselves
never raise (`RCONClient` catches all transport errors internally), so
the injectable failure points are the filesystem/archival steps:
`mkdir` and the tar write. Each run is summarised by its result and the
ordered list of observable effects. -/

/-- Observable effects of a `create_backup` run. -/
inductive BackupEvent where
  /-- `rcon.send_command c` was invoked on a console session. -/
  | rconCommand (c : String)
  /-- `time.sleep(2)`. -/
  | sleepWait
  /-- `backup_path.parent.mkdir(parents=True, exist_ok=True)`. -/
  | mkdirDir
  /-- `tarfile.open(...)` / `tar.add(...)` completed. -/
  | archiveWrite
  deriving DecidableEq, Repr

/-- Failure injection for `create_backup`. -/
structure BkEnv where
  /-- `mkdir` raises. -/
  mkdirFails : Bool
  /-- The tar write raises. -/
  tarFails : Bool
  deriving DecidableEq, Repr

/-- `backup_name or f"{server_name}_{timestamp}"`, with the `.tar.gz`
suffix of the archive file name. -/
def backupFileName (serverName timestamp : String) (backupName : Option String) :
    String :=
  backupName.getD (serverName ++ "_" ++ timestamp) ++ ".tar.gz"

/-- `BackupManager.create_backup`: result and effect trace. -/
def create_backup (env : BkEnv) (serverName timestamp : String)
    (backupName : Option String) : Option String × List BackupEvent :=
  let pause : List BackupEvent :=
    [.rconCommand "save-off", .rconCommand "save-all flush", .sleepWait]
  if env.mkdirFails then
    -- `mkdir` raised: except handler issues `save-on`, returns None
    (none, pause ++ [.rconCommand "save-on"])
  else if env.tarFails then
    -- archival raised: except handler issues `save-on`, returns None
    (none, pause ++ [.mkdirDir, .rconCommand "save-on"])
  else
    (some (backupFileName serverName timestamp backupName),
      pause ++ [.mkdirDir, .archiveWrite, .rconCommand "save-on"])

/-! ### Docker manager (`docker_manager.py`, `DockerManager`)

The Docker SDK is abstracted by an oracle giving the outcome of each
underlying API call. `DockerErr.notFound` is `docker.errors.NotFound`;
`DockerErr.apiError` is any other exception from the SDK call. Each
manager operation is first translated without its outermost
`try/except` (`...E`, of type `Except DockerErr _`, mirroring Python
exception propagation), and the public operation applies the handler,
which logs and returns `False`/`None` — except `create_server`, whose
handler re-raises. -/

/-- Exceptions from the Docker SDK. -/
inductive DockerErr where
  | notFound
  | apiError (msg : String)
  deriving DecidableEq, Repr

/-- Raw Docker stats sample (`container.stats(stream=False)`), the
fields read by `_parse_stats`. `networks` is `none` when the
`'networks'` key is absent; otherwise a list of
`(rx_bytes, tx_bytes)` per attached interface. -/
structure RawStats where
  cpuTotalUsage : Int
  precpuTotalUsage : Int
  systemCpuUsage : Int
  precpuSystemUsage : Int
  onlineCpus : Nat
  memUsage : Int
  memLimit : Int
  networks : Option (List (Int × Int))
  deriving DecidableEq, Repr

/-- A container object, carrying the outcome of each method the manager
may call on it. `networks` models
`attrs['NetworkSettings']['Networks']`: per network name, the
`IPAddress` value (which `.get` may find absent). -/
structure Cntr where
  status : String
  startR : Except DockerErr Unit
  stopR : Except DockerErr Unit
  restartR : Except DockerErr Unit
  removeR : Except DockerErr Unit
  reloadR : Except DockerErr Unit
  networks : List (String × Option String)
  statsR : Except DockerErr RawStats
  logsR : Except DockerErr String

/-- Outcomes of the Docker client calls a `DockerManager` scenario
performs. -/
structure DockerEnv where
  /-- `client.containers.get(container_id)`. -/
  containersGet : Except DockerErr Cntr
  /-- `client.networks.get(network_name)` (in `ensure_network`). -/
  networksGet : Except DockerErr Unit
  /-- `client.networks.create(...)`. -/
  networksCreate : Except DockerErr Unit
  /-- `data_dir.mkdir(parents=True, exist_ok=True)`. -/
  mkdirR : Except DockerErr Unit
  /-- `client.containers.run(...)`. -/
  runR : Except DockerErr Cntr

/-- `DockerManager.get_container`: `containers.get`, catching only
`docker.errors.NotFound` (folded to `none`); any other exception
propagates. -/
def get_container (env : DockerEnv) : Except DockerErr (Option Cntr) :=
  match env.containersGet with
  | .ok c => .ok (some c)
  | .error .notFound => .ok none
  | .error e => .error e

/-- The Python `try/except` returning `False` on any exception. -/
def tryBool (x : Except DockerErr Bool) : Bool :=
  match x with
  | .ok b => b
  | .error _ => false

/-- The Python `try/except` returning `None` on any exception. -/
def tryOpt {α : Type} (x : Except DockerErr (Option α)) : Option α :=
  match x with
  | .ok v => v
  | .error _ => none

/-- Body of `DockerManager.start_server` without the outer handler. -/
def start_serverE (env : DockerEnv) : Except DockerErr Bool := do
  match ← get_container env with
  | some c => do
    _ ← c.startR
    pure true
  | none => pure false

/-- `DockerManager.start_server`. -/
def start_server (env : DockerEnv) : Bool :=
  tryBool (start_serverE env)

/-- Body of `DockerManager.stop_server` without the outer handler
(the grace `timeout` argument does not influence the abstracted
outcome). -/
def stop_serverE (env : DockerEnv) : Except DockerErr Bool := do
  match ← get_container env with
  | some c => do
    _ ← c.stopR
    pure true
  | none => pure false

/-- `DockerManager.stop_server`. -/
def stop_server (env : DockerEnv) : Bool :=
  tryBool (stop_serverE env)

/-- Body of `DockerManager.restart_server` without the outer handler. -/
def restart_serverE (env : DockerEnv) : Except DockerErr Bool := do
  match ← get_container env with
  | some c => do
    _ ← c.restartR
    pure true
  | none => pure false

/-- `DockerManager.restart_server`. -/
def restart_server (env : DockerEnv) : Bool :=
  tryBool (restart_serverE env)

/-- Body of `DockerManager.delete_server` without the outer handler:
stop first when the status is `running`, then `remove`. -/
def delete_serverE (env : DockerEnv) : Except DockerErr Bool := do
  match ← get_container env with
  | some c => do
    if c.status = "running" then
      _ ← c.stopR
    _ ← c.removeR
    pure true
  | none => pure false

/-- `DockerManager.delete_server`. -/
def delete_server (env : DockerEnv) : Bool :=
  tryBool (delete_serverE env)

/-- Body of `DockerManager.get_container_ip` without the outer handler:
reload, then look up the managed network by name in
`NetworkSettings.Networks` and read its `IPAddress`. -/
def get_container_ipE (env : DockerEnv) (networkName : String) :
    Except DockerErr (Option String) := do
  match ← get_container env with
  | some c => do
    _ ← c.reloadR
    match c.networks.lookup networkName with
    | some ipOpt => pure ipOpt
    | none => pure none
  | none => pure none

/-- `DockerManager.get_container_ip`. -/
def get_container_ip (env : DockerEnv) (networkName : String) : Option String :=
  tryOpt (get_container_ipE env networkName)

/-- Body of `DockerManager.get_container_logs` without the outer
handler. -/
def get_container_logsE (env : DockerEnv) : Except DockerErr (Option String) := do
  match ← get_container env with
  | some c => do
    let logs ← c.logsR
    pure (some logs)
  | none => pure none

/-- `DockerManager.get_container_logs`. -/
def get_container_logs (env : DockerEnv) : Option String :=
  tryOpt (get_container_logsE env)

/-! #### `_parse_stats` (`docker_manager.py`, lines 254–284) -/

/-- Round-half-to-even to an integer, the idealisation of Python's
`round` on exact values. -/
def roundHalfEven (x : ℚ) : ℤ :=
  let f := ⌊x⌋
  let r := x - f
  if r < 1/2 then f
  else if 1/2 < r then f + 1
  else if f % 2 = 0 then f else f + 1

/-- Python `round(x, 2)`. -/
def roundTo2 (x : ℚ) : ℚ :=
  (roundHalfEven (x * 100) : ℚ) / 100

/-- The normalized metrics returned by `_parse_stats`. -/
structure ParsedStats where
  cpu_percent : ℚ
  memory_usage : Int
  memory_limit : Int
  memory_percent : ℚ
  network_rx : Int
  network_tx : Int
  deriving DecidableEq, Repr

/-- `DockerManager._parse_stats`. -/
def parse_stats (s : RawStats) : ParsedStats :=
  let cpu_delta : ℚ := ((s.cpuTotalUsage - s.precpuTotalUsage : Int) : ℚ)
  let system_delta : ℚ := ((s.systemCpuUsage - s.precpuSystemUsage : Int) : ℚ)
  let cpu_percent : ℚ :=
    if 0 < system_delta then cpu_delta / system_delta * s.onlineCpus * 100 else 0
  let memory_percent : ℚ :=
    if 0 < s.memLimit then (s.memUsage : ℚ) / (s.memLimit : ℚ) * 100 else 0
  let rx : Int := match s.networks with
    | some ifs => (ifs.map Prod.fst).sum
    | none => 0
  let tx : Int := match s.networks with
    | some ifs => (ifs.map Prod.snd).sum
    | none => 0
  { cpu_percent := roundTo2 cpu_percent
    memory_usage := s.memUsage
    memory_limit := s.memLimit
    memory_percent := roundTo2 memory_percent
    network_rx := rx
    network_tx := tx }

/-- Body of `DockerManager.get_stats` without the outer handler. -/
def get_statsE (env : DockerEnv) : Except DockerErr (Option ParsedStats) := do
  match ← get_container env with
  | some c => do
    let raw ← c.statsR
    pure (some (parse_stats raw))
  | none => pure none

/-- `DockerManager.get_stats`. -/
def get_stats (env : DockerEnv) : Option ParsedStats :=
  tryOpt (get_statsE env)

/-! #### `create_server` (`docker_manager.py`, lines 30–133) -/

/-- The environment-variable map built by `create_server` (lines 69–92),
as the association list of the Python dict literal plus the optional
`JVM_OPTS` entry. Caller-supplied `server_properties` values are
modelled post-`str()` (already stringified), as a partial map from
property key to value. -/
def buildServerEnv (serverType version : String) (memoryLimit : Nat)
    (rconPassword : String) (props : String → Option String)
    (javaArgs : Option String) : List (String × String) :=
  let base : List (String × String) :=
    [("EULA", "TRUE"),
     ("VERSION", version),
     ("TYPE", serverType.toUpper),
     ("MEMORY", toString memoryLimit ++ "M"),
     ("ENABLE_RCON", "true"),
     ("RCON_PASSWORD", rconPassword),
     ("RCON_PORT", "25575"),
     ("ONLINE_MODE", (props "online_mode").getD "true"),
     ("DIFFICULTY", (props "difficulty").getD "normal"),
     ("MAX_PLAYERS", (props "max_players").getD "20"),
     ("ALLOW_NETHER", (props "allow_nether").getD "true"),
     ("ANNOUNCE_PLAYER_ACHIEVEMENTS",
       (props "announce_player_achievements").getD "true"),
     ("ENABLE_COMMAND_BLOCK", (props "enable_command_block").getD "false"),
     ("SPAWN_PROTECTION", (props "spawn_protection").getD "16"),
     ("VIEW_DISTANCE", (props "view_distance").getD "10"),
     ("PVP", (props "pvp").getD "true"),
     ("GAMEMODE", (props "gamemode").getD "survival"),
     ("MOTD", (props "motd").getD "A Minecraft Server")]
  match javaArgs with
  | some j => base ++ [("JVM_OPTS", j)]
  | none => base

/-- `DockerManager.ensure_network`: look up the named network, creating
it only on `NotFound`; other lookup exceptions and creation exceptions
propagate. -/
def ensure_networkE (env : DockerEnv) : Except DockerErr Unit :=
  match env.networksGet with
  | .ok _ => .ok ()
  | .error .notFound => env.networksCreate
  | .error e => .error e

/-- `DockerManager.create_server`: ensure the network, materialize the
data directory, then `containers.run`. The inner `try/except` around
`containers.run` logs and re-raises, so every runtime-API exception
propagates to the caller. -/
def create_serverE (env : DockerEnv) : Except DockerErr Cntr := do
  _ ← ensure_networkE env
  _ ← env.mkdirR
  match env.runR with
  | .ok c => .ok c
  | .error e => .error e

/-! ### Task queue (`task_queue.py`, `TaskQueue`)

Worker loops are modelled by a small-step transition relation on the
shared queue state. `unfinished` is the `queue.Queue` unfinished-task
counter: incremented by `put` (all `submit`s are performed up front in
the initial state), decremented by `task_done`; `wait_completion`
(`queue.join`) returns exactly in the states where it is zero. An
in-flight entry `(t, none)` has been dequeued but its body has not run
yet; `(t, some outcome)` has run with the given outcome (`false` =
the body raised, caught by the worker's inner `try/except`). `executed`
is the log of task-body invocations in completion order. -/

/-- Shared state of the task queue and its workers. -/
structure TQState (τ : Type) where
  pending : List τ
  inflight : List (τ × Option Bool)
  executed : List τ
  unfinished : Nat

/-- One scheduler step of some worker thread. -/
inductive TQStep {τ : Type} : TQState τ → TQState τ → Prop where
  /-- `func, args, kwargs = self.task_queue.get(timeout=1)`. -/
  | dequeue (t : τ) (rest : List τ) (infl : List (τ × Option Bool))
      (ex : List τ) (n : Nat) :
      TQStep ⟨t :: rest, infl, ex, n⟩ ⟨rest, (t, none) :: infl, ex, n⟩
  /-- `func(*args, **kwargs)` runs to completion or raises
  (`outcome = false`); either way the exception is caught by the inner
  `try/except` and the worker proceeds. -/
  | run (outcome : Bool) (p : List τ) (pre post : List (τ × Option Bool))
      (t : τ) (ex : List τ) (n : Nat) :
      TQStep ⟨p, pre ++ (t, none) :: post, ex, n⟩
        ⟨p, pre ++ (t, some outcome) :: post, ex ++ [t], n⟩
  /-- `finally: self.task_queue.task_done()`, performed for success and
  failure alike. -/
  | done (b : Bool) (p : List τ) (pre post : List (τ × Option Bool))
      (t : τ) (ex : List τ) (n : Nat) :
      TQStep ⟨p, pre ++ (t, some b) :: post, ex, n + 1⟩
        ⟨p, pre ++ post, ex, n⟩

/-- The state right after `submit`ting the list of tasks, in order: all
queued, the unfinished counter incremented once per `put`. -/
def TQState.init {τ : Type} (tasks : List τ) : TQState τ :=
  ⟨tasks, [], [], tasks.length⟩

/-- Reachability under worker steps. -/
def TQReach {τ : Type} (s t : TQState τ) : Prop :=
  Relation.ReflTransGen TQStep s t

/-- A collection schedule in which any two collections at most
`METRICS_MAXLEN` positions apart in sequence are at most `retention`
seconds apart in time — the abstraction of "a cadence of at most
`retention / METRICS_MAXLEN` (5) seconds", under which the age bound
never evicts before the capacity bound does. -/
def WindowBounded {M : Type} (retention : Nat) (events : List (Nat × M)) :
    Prop :=
  ∀ i j ti tj, i ≤ j → j - i ≤ METRICS_MAXLEN →
    (events.map Prod.fst)[i]? = some ti →
    (events.map Prod.fst)[j]? = some tj →
    tj ≤ ti + retention

/-! ## Theorems -/

/-! ### C1 — fail-closed authentication -/

/-- Packets transmitted by `connect` are all AUTH packets carrying the
password. -/
theorem connect_sent_auth_only (env : REnv) (pw : String) (st : RState) :
    ∀ p ∈ (RCONClient.connect env pw st).sent, p = ⟨PACKET_AUTH, pw⟩ := by
  intro p hp
  unfold RCONClient.connect at hp
  cases hc : env.connectOk with
  | false => simp [hc] at hp
  | true =>
    cases ha : env.authReply with
    | none => simp [hc, ha] at hp; simp [hp]
    | some i =>
      by_cases hi : i = -1 <;> simp [hc, ha, hi] at hp <;> simp [hp]

/-- C1: the claim fails on the code. When the authentication response
carries request-id `-1`, `connect` reports failure — but the socket is
left open (`_authenticate` returns `False` without `disconnect`), so a
subsequent `send_command` on that client transmits a COMMAND packet on
the unauthenticated session. Evaluated at the failing input: a peer
that accepts the TCP connection and replies to AUTH with request-id
`-1`. -/
theorem c1_auth_rejected_command_still_sent :
    (RCONClient.connect ⟨true, some (-1), some "r"⟩ "pw" RState.init).ok
        = false ∧
      (RCONClient.connect ⟨true, some (-1), some "r"⟩ "pw" RState.init).st.sock
        = true ∧
      (RCONClient.send_command ⟨true, some (-1), some "r"⟩ "pw"
          (RCONClient.connect ⟨true, some (-1), some "r"⟩ "pw" RState.init).st
          "list").sent
        = [⟨PACKET_COMMAND, "list"⟩] := by
  decide

/-! ### C3 — backup always re-enables saving -/

/-- C3: every invocation of `create_backup` issues `save-on` over a
console session as its last effect — also when `mkdir` or the archival
raises after `save-off` succeeded — and every failure path returns
`None` after that best-effort resume attempt. -/
theorem c3_save_resume_always_issued (env : BkEnv) (sn ts : String)
    (bn : Option String) :
    BackupEvent.rconCommand "save-on" ∈ (create_backup env sn ts bn).2 ∧
      (create_backup env sn ts bn).2.getLast?
        = some (.rconCommand "save-on") ∧
      (env.mkdirFails = true ∨ env.tarFails = true →
        (create_backup env sn ts bn).1 = none) := by
  obtain ⟨mf, tf⟩ := env
  cases mf <;> cases tf <;> simp [create_backup]

/-- Witness for C3 at a concrete failing input: archival raises, the
resume command is still the final effect, and the result is `None`. -/
theorem c3_save_resume_always_issued_witness :
    BackupEvent.rconCommand "save-on"
        ∈ (create_backup ⟨false, true⟩ "s" "t" none).2 ∧
      (create_backup ⟨false, true⟩ "s" "t" none).2.getLast?
        = some (.rconCommand "save-on") ∧
      (create_backup ⟨false, true⟩ "s" "t" none).1 = none := by
  have h := c3_save_resume_always_issued ⟨false, true⟩ "s" "t" none
  exact ⟨h.1, h.2.1, h.2.2 (Or.inr rfl)⟩

/-! ### C9 — send_command on a closed client -/

/-- C9: if `send_command` runs on a client whose socket is not open, it
first attempts a full `connect` (including authentication) and returns
`None` without transmitting any COMMAND packet when that connect
reports failure; and whenever a COMMAND packet is transmitted, either
the socket was already open or the fresh connect succeeded. -/
theorem c9_send_command_connects_first (env : REnv) (pw : String)
    (st : RState) (cmd : String) :
    (st.sock = false → (RCONClient.connect env pw st).ok = false →
        (RCONClient.send_command env pw st cmd).resp = none ∧
          ∀ p ∈ (RCONClient.send_command env pw st cmd).sent,
            p.ptype ≠ PACKET_COMMAND) ∧
      (∀ p ∈ (RCONClient.send_command env pw st cmd).sent,
        p.ptype = PACKET_COMMAND →
          st.sock = true ∨ (RCONClient.connect env pw st).ok = true) := by
  constructor
  · intro hs hc
    rw [RCONClient.send_command, hs]
    simp [hc]
    intro p hp
    have := connect_sent_auth_only env pw st p hp
    simp [this, PACKET_AUTH, PACKET_COMMAND]
  · intro p hp hpt
    rw [RCONClient.send_command] at hp
    cases hs : st.sock with
    | true => exact Or.inl rfl
    | false =>
      rw [hs] at hp
      simp at hp
      cases hc : (RCONClient.connect env pw st).ok with
      | true => exact Or.inr rfl
      | false =>
        rw [hc] at hp
        simp at hp
        have := connect_sent_auth_only env pw st p hp
        rw [this] at hpt
        simp [PACKET_AUTH, PACKET_COMMAND] at hpt

/-- Witness for C9 at a concrete input: a fresh client against a peer
that refuses the TCP connection. -/
theorem c9_send_command_connects_first_witness :
    (RCONClient.send_command ⟨false, none, none⟩ "pw" RState.init "list").resp
        = none ∧
      ∀ p ∈ (RCONClient.send_command ⟨false, none, none⟩ "pw" RState.init
          "list").sent, p.ptype ≠ PACKET_COMMAND := by
  exact (c9_send_command_connects_first ⟨false, none, none⟩ "pw" RState.init
    "list").1 rfl rfl

/-! ### C10 — fixed container environment entries -/

/-- C10: for every input to `create_server`, the container environment
map binds `EULA` to `'TRUE'`, `ENABLE_RCON` to `'true'` and `RCON_PORT`
to `'25575'`; the caller-supplied server-properties map cannot override
them (the statement quantifies over all property maps). -/
theorem c10_fixed_env_entries (serverType version : String)
    (memoryLimit : Nat) (rconPassword : String)
    (props : String → Option String) (javaArgs : Option String) :
    (buildServerEnv serverType version memoryLimit rconPassword props
          javaArgs).lookup "EULA" = some "TRUE" ∧
      (buildServerEnv serverType version memoryLimit rconPassword props
          javaArgs).lookup "ENABLE_RCON" = some "true" ∧
      (buildServerEnv serverType version memoryLimit rconPassword props
          javaArgs).lookup "RCON_PORT" = some "25575" := by
  cases javaArgs <;> simp [buildServerEnv, List.lookup]

/-! ### C7 — stats normalization -/

/-- Half-even rounding is within half a unit of its argument. -/
theorem abs_roundHalfEven_sub (y : ℚ) : |(roundHalfEven y : ℚ) - y| ≤ 1/2 := by
  have hf : (⌊y⌋ : ℚ) ≤ y := Int.floor_le y
  have hf1 : y < ⌊y⌋ + 1 := Int.lt_floor_add_one y
  simp only [roundHalfEven]
  split_ifs with h1 h2 h3 <;> push_cast <;> rw [abs_le] <;>
    constructor <;> linarith

/-- Rounding zero gives zero. -/
theorem roundTo2_zero : roundTo2 0 = 0 := by
  have h : roundHalfEven 0 = 0 := by
    simp only [roundHalfEven]
    norm_num
  simp [roundTo2, h]

/-- `round(x, 2)` is within `1/200` of `x` and is an integer multiple of
`1/100`. -/
theorem roundTo2_close (x : ℚ) :
    |roundTo2 x - x| ≤ 1/200 ∧ ∃ k : ℤ, roundTo2 x = (k : ℚ) / 100 := by
  constructor
  · have h := abs_roundHalfEven_sub (x * 100)
    have : roundTo2 x - x = ((roundHalfEven (x * 100) : ℚ) - x * 100) / 100 := by
      unfold roundTo2; ring
    rw [this, abs_div]
    rw [abs_of_pos (by norm_num : (0:ℚ) < 100)]
    linarith
  · exact ⟨roundHalfEven (x * 100), rfl⟩

/-- C7: the claim fails on the code. `_parse_stats` applies
`round(·, 2)` before returning the CPU percentage, so at a sample with
`cpu_delta = 1`, `system_delta = 3`, `online_cpus = 1` the returned
value is `33.33`, not the exact `(1/3)·1·100 = 100/3` the claim
asserts. -/
theorem c7_exact_formula_counterexample :
    ¬ ((parse_stats ⟨1, 0, 3, 0, 1, 1, 2, none⟩).cpu_percent
        = ((1 : ℚ) - 0) / ((3 : ℚ) - 0) * 1 * 100) := by
  have h1 : (parse_stats ⟨1, 0, 3, 0, 1, 1, 2, none⟩).cpu_percent
      = roundTo2 (100/3) := by
    simp only [parse_stats]
    norm_num
  have h2 : roundTo2 (100/3 : ℚ) = 3333/100 := by
    have hfl : ⌊(100/3 : ℚ) * 100⌋ = 3333 := by norm_num
    simp only [roundTo2, roundHalfEven, hfl]
    norm_num
  rw [h1, h2]
  norm_num

/-- C7 (amended): the normalized metrics equal the specified formulas up
to the 2-decimal rounding the code applies: when the system delta is
positive, `cpu_percent` is within `1/200` of
`(cpu_delta/system_delta)·online_cpus·100` and is a multiple of
`1/100`, and it is `0` otherwise; `memory_percent` behaves likewise
with `usage/limit·100` guarded by a positive limit; `network_rx` /
`network_tx` are exactly the interface sums, `0` when no networks are
present. -/
theorem c7_parse_stats_amended (s : RawStats) :
    (0 < ((s.systemCpuUsage - s.precpuSystemUsage : Int) : ℚ) →
        |(parse_stats s).cpu_percent -
            ((s.cpuTotalUsage - s.precpuTotalUsage : Int) : ℚ) /
              ((s.systemCpuUsage - s.precpuSystemUsage : Int) : ℚ) *
              s.onlineCpus * 100| ≤ 1/200 ∧
          ∃ k : ℤ, (parse_stats s).cpu_percent = (k : ℚ) / 100) ∧
      (¬ 0 < ((s.systemCpuUsage - s.precpuSystemUsage : Int) : ℚ) →
        (parse_stats s).cpu_percent = 0) ∧
      (0 < s.memLimit →
        |(parse_stats s).memory_percent -
            (s.memUsage : ℚ) / (s.memLimit : ℚ) * 100| ≤ 1/200 ∧
          ∃ k : ℤ, (parse_stats s).memory_percent = (k : ℚ) / 100) ∧
      (¬ 0 < s.memLimit → (parse_stats s).memory_percent = 0) ∧
      (∀ ifs, s.networks = some ifs →
        (parse_stats s).network_rx = (ifs.map Prod.fst).sum ∧
          (parse_stats s).network_tx = (ifs.map Prod.snd).sum) ∧
      (s.networks = none →
        (parse_stats s).network_rx = 0 ∧ (parse_stats s).network_tx = 0) := by
  refine ⟨?_, ?_, ?_, ?_, ?_, ?_⟩
  · intro h
    simp only [parse_stats]
    rw [if_pos h]
    exact roundTo2_close _
  · intro h
    simp only [parse_stats]
    rw [if_neg h]
    exact roundTo2_zero
  · intro h
    simp only [parse_stats]
    rw [if_pos h]
    exact roundTo2_close _
  · intro h
    simp only [parse_stats]
    rw [if_neg h]
    exact roundTo2_zero
  · intro ifs hifs
    simp only [parse_stats, hifs]
    exact ⟨trivial, trivial⟩
  · intro hn
    simp only [parse_stats, hn]
    exact ⟨trivial, trivial⟩

/-- Witness for C7 (amended) at a concrete sample. -/
theorem c7_parse_stats_amended_witness :
    |(parse_stats ⟨1, 0, 3, 0, 1, 1, 2, none⟩).cpu_percent -
        ((1 : ℚ) - 0) / ((3 : ℚ) - 0) * 1 * 100| ≤ 1/200 ∧
      (parse_stats ⟨1, 0, 3, 0, 1, 1, 2, none⟩).network_rx = 0 := by
  have h := c7_parse_stats_amended ⟨1, 0, 3, 0, 1, 1, 2, none⟩
  refine ⟨?_, (h.2.2.2.2.2 rfl).1⟩
  have := (h.1 (by norm_num)).1
  simpa using this

/-! ### C5 — packet round-trip -/

/-- The encoding of a 32-bit value is 4 bytes long. -/
theorem int32ToLE_length (n : Nat) : (int32ToLE n).length = 4 := by
  simp [int32ToLE]

/-- Little-endian decoding inverts encoding on the signed-positive
range. -/
theorem leToInt32_int32ToLE (n : Nat) (h : n < 2147483648) :
    leToInt32 (int32ToLE n) = (n : Int) := by
  simp only [int32ToLE, leToInt32, List.getD_cons_zero, List.getD_cons_succ]
  have hv : n % 256 + 256 * (n / 256 % 256) + 65536 * (n / 65536 % 256) +
      16777216 * (n / 16777216 % 256) = n := by omega
  rw [hv, if_pos h]

/-- C5: a packet encoded with the sender's framing
(`[int32 LE size][int32 LE request-id][int32 LE type][payload][0x00 0x00]`,
`size = len(payload) + 10`) and decoded through the packet reader
reproduces the original request-id, type and payload exactly, for every
request-id and type in the signed-positive 32-bit range, every payload,
and any trailing bytes left in the stream. -/
theorem c5_packet_roundtrip (rid ptype : Nat) (payload rest : List Nat)
    (hrid : rid < 2147483648) (hpt : ptype < 2147483648)
    (hlen : payload.length + 10 < 2147483648) :
    decodePacket (packetBytes rid ptype payload ++ rest)
      = some ((rid : Int), (ptype : Int), payload) := by
  have hstream : packetBytes rid ptype payload ++ rest
      = int32ToLE (payload.length + 10) ++
        ((int32ToLE rid ++ int32ToLE ptype ++ payload ++ [0, 0]) ++ rest) := by
    simp [packetBytes]
  rw [hstream]
  have hPlen : (int32ToLE rid ++ int32ToLE ptype ++ payload ++ [0, 0]).length
      = payload.length + 10 := by
    simp [int32ToLE]
  simp only [decodePacket]
  rw [List.take_left' (int32ToLE_length _), List.drop_left' (int32ToLE_length _),
    leToInt32_int32ToLE _ hlen, Int.toNat_natCast]
  rw [List.take_left' hPlen]
  have h1 : (int32ToLE rid ++ int32ToLE ptype ++ payload ++ [0, 0]).take 4
      = int32ToLE rid := by
    rw [show int32ToLE rid ++ int32ToLE ptype ++ payload ++ [0, 0]
      = int32ToLE rid ++ (int32ToLE ptype ++ payload ++ [0, 0]) by simp]
    exact List.take_left' (int32ToLE_length _)
  have h2 : (int32ToLE rid ++ int32ToLE ptype ++ payload ++ [0, 0]).drop 4
      = int32ToLE ptype ++ payload ++ [0, 0] := by
    rw [show int32ToLE rid ++ int32ToLE ptype ++ payload ++ [0, 0]
      = int32ToLE rid ++ (int32ToLE ptype ++ payload ++ [0, 0]) by simp]
    exact List.drop_left' (int32ToLE_length _)
  have h3 : (int32ToLE ptype ++ payload ++ [0, 0]).take 4 = int32ToLE ptype := by
    rw [show int32ToLE ptype ++ payload ++ [0, 0]
      = int32ToLE ptype ++ (payload ++ [0, 0]) by simp]
    exact List.take_left' (int32ToLE_length _)
  have h4 : (int32ToLE rid ++ int32ToLE ptype ++ payload ++ [0, 0]).drop 8
      = payload ++ [0, 0] := by
    rw [show int32ToLE rid ++ int32ToLE ptype ++ payload ++ [0, 0]
      = (int32ToLE rid ++ int32ToLE ptype) ++ (payload ++ [0, 0]) by simp]
    exact List.drop_left' (by simp [int32ToLE])
  have h5 : (payload ++ [0, 0]).dropLast.dropLast = payload := by
    rw [show payload ++ [0, 0] = (payload ++ [0]) ++ [0] by simp]
    rw [List.dropLast_concat, List.dropLast_concat]
  rw [h1, h2, h3, h4, leToInt32_int32ToLE _ hrid, leToInt32_int32ToLE _ hpt, h5]
  split_ifs with hA hB
  · rfl
  · exfalso
    apply hB
    refine ⟨Int.natCast_nonneg _, by omega, ?_⟩
    simp only [List.length_append, hPlen]
    omega
  · exfalso
    apply hA
    simp [int32ToLE]

/-- Witness for C5 at a concrete packet. -/
theorem c5_packet_roundtrip_witness :
    decodePacket (packetBytes 7 2 [104, 105] ++ [9, 9])
      = some ((7 : Int), (2 : Int), [104, 105]) := by
  exact c5_packet_roundtrip 7 2 [104, 105] [9, 9] (by norm_num) (by norm_num)
    (by norm_num)

/-! ### C8 — exact-byte receive loop -/

/-- When the receive loop returns normally, the accumulated data has
exactly the requested length. -/
theorem receiveBytesGo_ok_length (sched : List Nat) :
    ∀ (stream : List Nat) (need : Nat) (acc data : List Nat),
      acc.length ≤ need →
      receiveBytesGo sched stream need acc = some (Except.ok data) →
      data.length = need := by
  induction sched with
  | nil =>
    intro stream need acc data hle h
    simp only [receiveBytesGo] at h
    by_cases hc : need ≤ acc.length
    · rw [if_pos hc] at h
      simp only [Option.some.injEq, Except.ok.injEq] at h
      subst h
      omega
    · rw [if_neg hc] at h
      simp at h
  | cons s ss ih =>
    intro stream need acc data hle h
    simp only [receiveBytesGo] at h
    by_cases hc : need ≤ acc.length
    · rw [if_pos hc] at h
      simp only [Option.some.injEq, Except.ok.injEq] at h
      subst h
      omega
    · rw [if_neg hc] at h
      set chunk := stream.take (min (need - acc.length) s) with hchunk
      by_cases he : chunk.isEmpty
      · rw [if_pos he] at h
        simp at h
      · rw [if_neg he] at h
        refine ih (stream.drop chunk.length) need (acc ++ chunk) data ?_ h
        have hck : chunk.length ≤ need - acc.length := by
          rw [hchunk]
          simp only [List.length_take]
          omega
        simp only [List.length_append]
        omega

/-- With only positive (nonzero-sized) reads available, a
sufficiently long stream, and enough read calls, the receive loop
returns the first `need - acc.length` outstanding bytes appended to the
accumulator. -/
theorem receiveBytesGo_success (sched : List Nat) :
    ∀ (stream acc : List Nat) (need : Nat),
      (∀ s ∈ sched, 0 < s) →
      need ≤ acc.length + stream.length →
      need - acc.length ≤ sched.length →
      receiveBytesGo sched stream need acc
        = some (Except.ok (acc ++ stream.take (need - acc.length))) := by
  induction sched with
  | nil =>
    intro stream acc need _ h1 h2
    have hle : need ≤ acc.length := by
      simp only [List.length_nil] at h2
      omega
    have hz : need - acc.length = 0 := by omega
    simp only [receiveBytesGo, if_pos hle, hz, List.take_zero, List.append_nil]
  | cons s ss ih =>
    intro stream acc need hpos h1 h2
    simp only [List.length_cons] at h2
    by_cases hc : need ≤ acc.length
    · have hz : need - acc.length = 0 := by omega
      simp only [receiveBytesGo, if_pos hc, hz, List.take_zero, List.append_nil]
    · simp only [receiveBytesGo, if_neg hc]
      have hs : 0 < s := hpos s (by simp)
      have hstream_pos : 0 < stream.length := by omega
      have hchunk_ne : ¬ (stream.take (min (need - acc.length) s)).isEmpty := by
        rw [List.isEmpty_iff_length_eq_zero]
        simp only [List.length_take]
        omega
      rw [if_neg hchunk_ne]
      generalize hC : stream.take (min (need - acc.length) s) = C
      have hCmin : C.length = min (min (need - acc.length) s) stream.length := by
        rw [← hC]
        simp [List.length_take]
      obtain ⟨k, hk⟩ : ∃ k, C.length = k := ⟨_, rfl⟩
      have hkmin : k = min (min (need - acc.length) s) stream.length := by
        rw [← hk, hCmin]
      rw [hk]
      rw [ih (stream.drop k) (acc ++ C) need
        (fun x hx => hpos x (by simp [hx]))
        (by rw [List.length_append, List.length_drop, hk]; omega)
        (by rw [List.length_append, hk]; omega)]
      have htake : stream.take k = C := by
        rcases le_or_lt (min (need - acc.length) s) stream.length with hml | hml
        · have hkm : k = min (need - acc.length) s := by omega
          rw [hkm, hC]
        · have hCs : C = stream := by
            rw [← hC]
            exact List.take_of_length_le (by omega)
          have hks : k = stream.length := by omega
          rw [hks, List.take_length, hCs]
      have hfin : (acc ++ C) ++ (stream.drop k).take (need - (acc ++ C).length)
          = acc ++ stream.take (need - acc.length) := by
        rw [List.append_assoc, List.length_append, hk]
        congr 1
        rw [← htake, ← List.take_add]
        congr 1
        omega
      rw [hfin]

/-- If the peer closes before delivering the outstanding bytes (the
stream is shorter than required) the loop hits a zero-length read and
raises the connection error. -/
theorem receiveBytesGo_closed (sched : List Nat) :
    ∀ (stream acc : List Nat) (need : Nat),
      (∀ s ∈ sched, 0 < s) →
      acc.length + stream.length < need →
      stream.length < sched.length →
      receiveBytesGo sched stream need acc = some (Except.error ()) := by
  induction sched with
  | nil =>
    intro stream acc need _ _ h2
    simp at h2
  | cons s ss ih =>
    intro stream acc need hpos h1 h2
    have hc : ¬ need ≤ acc.length := by omega
    simp only [receiveBytesGo, if_neg hc]
    cases stream with
    | nil => simp
    | cons b bs =>
      have hs : 0 < s := hpos s (by simp)
      have hm : 0 < min (need - acc.length) s := by omega
      have hne : ¬ ((b :: bs).take (min (need - acc.length) s)).isEmpty := by
        rw [List.isEmpty_iff_length_eq_zero]
        simp only [List.length_take, List.length_cons]
        omega
      rw [if_neg hne]
      apply ih
      · intro x hx
        exact hpos x (by simp [hx])
      · simp only [List.length_append, List.length_drop, List.length_take,
          List.length_cons] at h1 ⊢
        omega
      · simp only [List.length_drop, List.length_take, List.length_cons] at h2 ⊢
        omega

/-- C8: the receive loop returns exactly the `n` requested bytes, across
arbitrary fragmentation into positive-size partial reads, provided the
peer delivers at least `n` bytes over at least `n` read calls; any
normal return carries exactly `n` bytes; and a zero-length read —
immediate, or after the delivered stream is exhausted before `n` bytes
accumulate — raises the connection error. -/
theorem c8_receive_bytes_exact (schedule stream : List Nat) (n : Nat) :
    ((∀ s ∈ schedule, 0 < s) → n ≤ stream.length → n ≤ schedule.length →
        receiveBytes schedule stream n = some (Except.ok (stream.take n))) ∧
      (∀ data, receiveBytes schedule stream n = some (Except.ok data) →
        data.length = n) ∧
      (∀ ss, schedule = 0 :: ss → 0 < n →
        receiveBytes schedule stream n = some (Except.error ())) ∧
      ((∀ s ∈ schedule, 0 < s) → stream.length < n →
        stream.length < schedule.length →
        receiveBytes schedule stream n = some (Except.error ())) := by
  refine ⟨?_, ?_, ?_, ?_⟩
  · intro hpos h1 h2
    have h := receiveBytesGo_success schedule stream [] n hpos
      (by simpa using h1) (by simpa using h2)
    simpa [receiveBytes] using h
  · intro data h
    exact receiveBytesGo_ok_length schedule stream n [] data (by simp) h
  · intro ss hss hn
    subst hss
    simp only [receiveBytes, receiveBytesGo]
    rw [if_neg (show ¬ (n ≤ ([] : List Nat).length) by simp; omega)]
    simp
  · intro hpos h1 h2
    have h := receiveBytesGo_closed schedule stream [] n hpos
      (by simpa using h1) h2
    simpa [receiveBytes] using h

/-- Witness for C8: a 3-byte request served in fragments of `1` then `2` bytes
returns exactly the 3 stream bytes; and a peer that closes after one
byte raises the connection error. -/
theorem c8_receive_bytes_exact_witness :
    receiveBytes [1, 2, 5] [10, 20, 30] 3 = some (Except.ok [10, 20, 30]) ∧
      receiveBytes [1, 1, 1] [10] 3 = some (Except.error ()) := by
  constructor
  · have h := (c8_receive_bytes_exact [1, 2, 5] [10, 20, 30] 3).1
      (by decide) (by decide) (by decide)
    simpa using h
  · exact (c8_receive_bytes_exact [1, 1, 1] [10] 3).2.2.2
      (by decide) (by decide) (by decide)

/-! ### C4 — lifecycle degradation vs. create propagation -/

/-- C4: every lifecycle control and read operation (`start`, `stop`,
`restart`, `delete`, stats, logs, IP lookup) returns `false`/`None` —
the exception is caught, never re-raised — both when the container does
not exist and when the runtime-API call fails; `create_server` alone
propagates the runtime-API exception from `containers.run` to its
caller. -/
theorem c4_lifecycle_degrades_create_propagates (env : DockerEnv) :
    (env.containersGet = .error .notFound →
        start_server env = false ∧ stop_server env = false ∧
          restart_server env = false ∧ delete_server env = false ∧
          (∀ nm, get_container_ip env nm = none) ∧
          get_stats env = none ∧ get_container_logs env = none) ∧
      (∀ m, env.containersGet = .error (.apiError m) →
        start_server env = false ∧ stop_server env = false ∧
          restart_server env = false ∧ delete_server env = false ∧
          (∀ nm, get_container_ip env nm = none) ∧
          get_stats env = none ∧ get_container_logs env = none) ∧
      (∀ c e, env.containersGet = .ok c → c.startR = .error e →
        start_server env = false) ∧
      (∀ c e, env.containersGet = .ok c → c.stopR = .error e →
        stop_server env = false) ∧
      (∀ c e, env.containersGet = .ok c → c.restartR = .error e →
        restart_server env = false) ∧
      (∀ c e, env.containersGet = .ok c → c.removeR = .error e →
        delete_server env = false) ∧
      (∀ e, env.networksGet = .ok () → env.mkdirR = .ok () →
        env.runR = .error e → create_serverE env = .error e) := by
  refine ⟨?_, ?_, ?_, ?_, ?_, ?_, ?_⟩
  · intro h
    refine ⟨?_, ?_, ?_, ?_, ?_, ?_, ?_⟩ <;>
      simp [start_server, start_serverE, stop_server, stop_serverE,
        restart_server, restart_serverE, delete_server, delete_serverE,
        get_container_ip, get_container_ipE, get_stats, get_statsE,
        get_container_logs, get_container_logsE, get_container, tryBool,
        tryOpt, h, Bind.bind, Except.bind, Pure.pure, Except.pure,
        Functor.map, Except.map]
  · intro m h
    refine ⟨?_, ?_, ?_, ?_, ?_, ?_, ?_⟩ <;>
      simp [start_server, start_serverE, stop_server, stop_serverE,
        restart_server, restart_serverE, delete_server, delete_serverE,
        get_container_ip, get_container_ipE, get_stats, get_statsE,
        get_container_logs, get_container_logsE, get_container, tryBool,
        tryOpt, h, Bind.bind, Except.bind, Pure.pure, Except.pure,
        Functor.map, Except.map]
  · intro c e hc he
    simp [start_server, start_serverE, get_container, tryBool, hc, he,
      Bind.bind, Except.bind, Pure.pure, Except.pure, Functor.map, Except.map]
  · intro c e hc he
    simp [stop_server, stop_serverE, get_container, tryBool, hc, he,
      Bind.bind, Except.bind, Pure.pure, Except.pure, Functor.map, Except.map]
  · intro c e hc he
    simp [restart_server, restart_serverE, get_container, tryBool, hc, he,
      Bind.bind, Except.bind, Pure.pure, Except.pure, Functor.map, Except.map]
  · intro c e hc he
    by_cases hr : c.status = "running"
    · cases hstop : c.stopR with
      | ok u =>
        simp [delete_server, delete_serverE, get_container, tryBool, hc, he,
          hr, hstop, Bind.bind, Except.bind, Pure.pure, Except.pure,
          Functor.map, Except.map]
      | error e2 =>
        simp [delete_server, delete_serverE, get_container, tryBool, hc, he,
          hr, hstop, Bind.bind, Except.bind, Pure.pure, Except.pure,
          Functor.map, Except.map]
    · simp [delete_server, delete_serverE, get_container, tryBool, hc, he, hr,
        Bind.bind, Except.bind, Pure.pure, Except.pure, Functor.map,
        Except.map]
  · intro e hng hmk hrun
    simp [create_serverE, ensure_networkE, hng, hmk, hrun, Bind.bind,
      Except.bind, Pure.pure, Except.pure, Functor.map, Except.map]

/-- Witness for C4 at concrete inputs: a missing container degrades
`start_server` to `false`, a failing `containers.run` propagates its
exception from `create_serverE`, and a container whose `start` call
fails degrades to `false`. -/
theorem c4_lifecycle_degrades_create_propagates_witness :
    start_server ⟨.error .notFound, .ok (), .ok (), .ok (),
        .error (.apiError "boom")⟩ = false ∧
      create_serverE ⟨.error .notFound, .ok (), .ok (), .ok (),
        .error (.apiError "boom")⟩ = .error (.apiError "boom") ∧
      start_server ⟨.ok ⟨"running", .error (.apiError "x"), .ok (), .ok (),
        .ok (), .ok (), [], .error .notFound, .ok "logs"⟩, .ok (), .ok (),
        .ok (), .error (.apiError "boom")⟩ = false := by
  refine ⟨?_, ?_, ?_⟩
  · exact ((c4_lifecycle_degrades_create_propagates _).1 rfl).1
  · exact (c4_lifecycle_degrades_create_propagates _).2.2.2.2.2.2
      (.apiError "boom") rfl rfl rfl
  · exact (c4_lifecycle_degrades_create_propagates _).2.2.1
      ⟨"running", .error (.apiError "x"), .ok (), .ok (), .ok (), .ok (), [],
        .error .notFound, .ok "logs"⟩ (.apiError "x") rfl rfl

/-! ### C6 — task queue completion -/

/-- The multiset of tasks not yet run, or already run, in a queue
state: pending, dequeued-but-not-run in-flight entries, and the
execution log. -/
def TQBag {τ : Type} (s : TQState τ) : Multiset τ :=
  (s.pending : Multiset τ) +
    (((s.inflight.filter fun e => e.2.isNone).map Prod.fst : List τ) :
      Multiset τ) +
    (s.executed : Multiset τ)

/-- Invariant tying the unfinished-task counter and the task multiset to
the submitted tasks. -/
def TQInv {τ : Type} (tasks : List τ) (s : TQState τ) : Prop :=
  s.unfinished = s.pending.length + s.inflight.length ∧
    TQBag s = (tasks : Multiset τ)

/-- Pulling a cons out of a list-to-multiset coercion. -/
theorem coe_cons_eq {α : Type} (a : α) (l : List α) :
    ((a :: l : List α) : Multiset α) = {a} + (l : Multiset α) := by
  rw [← Multiset.cons_coe, ← Multiset.singleton_add]

/-- Worker steps preserve the queue invariant. -/
theorem TQStep_inv {τ : Type} {tasks : List τ} {s t : TQState τ}
    (h : TQStep s t) (hinv : TQInv tasks s) : TQInv tasks t := by
  obtain ⟨hlen, hbag⟩ := hinv
  cases h with
  | dequeue t' rest infl ex n =>
    refine ⟨?_, ?_⟩
    · simp only [List.length_cons] at hlen ⊢
      omega
    · rw [← hbag]
      have hstep : ((((t', none) :: infl).filter fun e => e.2.isNone).map
          Prod.fst) = t' :: ((infl.filter fun e => e.2.isNone).map Prod.fst) := by
        simp
      simp only [TQBag]
      rw [hstep]
      simp only [coe_cons_eq, ← Multiset.coe_add]
      abel
  | run outcome p pre post t' ex n =>
    refine ⟨?_, ?_⟩
    · simp only [List.length_append, List.length_cons] at hlen ⊢
      omega
    · rw [← hbag]
      have hstep1 : (((pre ++ (t', some outcome) :: post).filter
          fun e => e.2.isNone).map Prod.fst)
          = ((pre.filter fun e => e.2.isNone).map Prod.fst) ++
            ((post.filter fun e => e.2.isNone).map Prod.fst) := by
        simp
      have hstep2 : (((pre ++ (t', none) :: post).filter
          fun e => e.2.isNone).map Prod.fst)
          = ((pre.filter fun e => e.2.isNone).map Prod.fst) ++
            t' :: ((post.filter fun e => e.2.isNone).map Prod.fst) := by
        simp
      simp only [TQBag]
      rw [hstep1, hstep2]
      simp only [coe_cons_eq, ← Multiset.coe_add, Multiset.coe_nil]
      abel
  | done b p pre post t' ex n =>
    refine ⟨?_, ?_⟩
    · simp only [List.length_append, List.length_cons] at hlen ⊢
      omega
    · rw [← hbag]
      have hstep1 : (((pre ++ (t', some b) :: post).filter
          fun e => e.2.isNone).map Prod.fst)
          = ((pre.filter fun e => e.2.isNone).map Prod.fst) ++
            ((post.filter fun e => e.2.isNone).map Prod.fst) := by
        simp
      have hstep2 : (((pre ++ post).filter fun e => e.2.isNone).map Prod.fst)
          = ((pre.filter fun e => e.2.isNone).map Prod.fst) ++
            ((post.filter fun e => e.2.isNone).map Prod.fst) := by
        simp
      simp only [TQBag]
      rw [hstep1, hstep2]

/-- The invariant holds along every reachable execution. -/
theorem TQReach_inv {τ : Type} {tasks : List τ} {s : TQState τ}
    (h : TQReach (TQState.init tasks) s) : TQInv tasks s := by
  induction h with
  | refl =>
    refine ⟨?_, ?_⟩
    · simp [TQState.init]
    · simp [TQBag, TQState.init]
  | tail _ hstep ih => exact TQStep_inv hstep ih

/-- C6: in every worker-schedule execution of K submitted tasks —
including runs in which task bodies raise, which the worker loop catches
and still marks complete — once the unfinished-task counter reaches
zero (the condition under which `wait_completion` / `queue.join`
returns), every submitted task has been dequeued and its body executed
exactly once: the execution log is a permutation of the submitted task
list, and no task remains pending or in flight. -/
theorem c6_tasks_executed_exactly_once {τ : Type} (tasks : List τ)
    (s : TQState τ) (hreach : TQReach (TQState.init tasks) s)
    (hdone : s.unfinished = 0) :
    s.executed.Perm tasks ∧ s.pending = [] ∧ s.inflight = [] := by
  obtain ⟨hlen, hbag⟩ := TQReach_inv hreach
  have hp : s.pending = [] := by
    rw [hdone] at hlen
    exact List.length_eq_zero.mp (by omega)
  have hi : s.inflight = [] := by
    rw [hdone] at hlen
    exact List.length_eq_zero.mp (by omega)
  refine ⟨?_, hp, hi⟩
  rw [TQBag, hp, hi] at hbag
  simp only [List.filter_nil, List.map_nil] at hbag
  rw [← Multiset.coe_eq_coe]
  simpa using hbag

/-- Witness for C6: two tasks, the first of which raises; after a
complete schedule the log contains both exactly once. -/
theorem c6_tasks_executed_exactly_once_witness :
    (([0, 1] : List Nat).Perm [0, 1]) ∧
      (⟨[], [], [0, 1], 0⟩ : TQState Nat).pending = [] := by
  have h1 : TQStep (TQState.init [0, 1]) ⟨[1], [(0, none)], [], 2⟩ :=
    TQStep.dequeue 0 [1] [] [] 2
  have h2 : TQStep (⟨[1], [(0, none)], [], 2⟩ : TQState Nat)
      ⟨[1], [(0, some false)], [0], 2⟩ :=
    TQStep.run false [1] [] [] 0 [] 2
  have h3 : TQStep (⟨[1], [(0, some false)], [0], 2⟩ : TQState Nat)
      ⟨[1], [], [0], 1⟩ :=
    TQStep.done false [1] [] [] 0 [0] 1
  have h4 : TQStep (⟨[1], [], [0], 1⟩ : TQState Nat)
      ⟨[], [(1, none)], [0], 1⟩ :=
    TQStep.dequeue 1 [] [] [0] 1
  have h5 : TQStep (⟨[], [(1, none)], [0], 1⟩ : TQState Nat)
      ⟨[], [(1, some true)], [0, 1], 1⟩ :=
    TQStep.run true [] [] [] 1 [0] 1
  have h6 : TQStep (⟨[], [(1, some true)], [0, 1], 1⟩ : TQState Nat)
      ⟨[], [], [0, 1], 0⟩ :=
    TQStep.done true [] [] [] 1 [0, 1] 0
  have hreach : TQReach (TQState.init [0, 1]) (⟨[], [], [0, 1], 0⟩ : TQState Nat) :=
    (((((Relation.ReflTransGen.refl.tail h1).tail h2).tail h3).tail
      h4).tail h5).tail h6
  have h := c6_tasks_executed_exactly_once [0, 1] ⟨[], [], [0, 1], 0⟩
    hreach rfl
  exact ⟨h.1, h.2.1⟩

/-! ### C2 — metrics ring buffer -/

/-- `takeLast` keeps at most `cap` elements regardless of further
prefix. -/
theorem takeLast_append_one {α : Type} (cap : Nat) (xs ys : List α) :
    takeLast cap (takeLast cap xs ++ ys) = takeLast cap (xs ++ ys) := by
  simp only [takeLast]
  rw [← @List.drop_append_of_le_length _ xs ys (xs.length - cap) (by omega)]
  rw [List.drop_drop]
  have hlen : xs.length - cap +
      (((xs ++ ys).drop (xs.length - cap)).length - cap)
      = (xs ++ ys).length - cap := by
    simp only [List.length_drop, List.length_append]
    omega
  rw [hlen]

/-- `takeLast` of a list short enough is the whole list. -/
theorem takeLast_of_le {α : Type} (cap : Nat) (xs : List α)
    (h : xs.length ≤ cap) : takeLast cap xs = xs := by
  simp only [takeLast, Nat.sub_eq_zero_of_le h, List.drop_zero]

/-- Length of `takeLast`. -/
theorem length_takeLast {α : Type} (cap : Nat) (xs : List α) :
    (takeLast cap xs).length = min cap xs.length := by
  simp only [takeLast, List.length_drop]
  omega

/-- The age cleanup is the identity when the front (oldest) entry is
young enough: the loop checks only the front and stops at the first
young entry. -/
theorem cleanupOldMetrics_of_head {M : Type} (retention now : Nat)
    (l : List (Nat × M))
    (h : ∀ p, l.head? = some p → ¬ (p.1 + retention < now)) :
    cleanupOldMetrics retention now l = l := by
  cases l with
  | nil => rfl
  | cons x rest =>
    obtain ⟨t, m⟩ := x
    have hx : ¬ (t + retention < now) := by simpa using h (t, m) rfl
    simp only [cleanupOldMetrics, if_neg hx]

/-- Core characterization: under a window-bounded collection schedule
the age pruning never fires, so the buffer after a collection run is
exactly the last `METRICS_MAXLEN` events — pure capacity eviction from
the oldest end. -/
theorem runCollector_eq_takeLast {M : Type} (retention : Nat)
    (events : List (Nat × M)) (hw : WindowBounded retention events) :
    runCollector retention events = takeLast METRICS_MAXLEN events := by
  induction events using List.reverseRecOn with
  | nil => simp [runCollector, takeLast]
  | append_singleton es e ih =>
    have hcap : 0 < METRICS_MAXLEN := by norm_num [METRICS_MAXLEN]
    have hw' : WindowBounded retention es := by
      intro i j ti tj hij hwin hi hj
      have hiL : i < (es.map Prod.fst).length := by
        by_contra hcon
        rw [List.getElem?_eq_none (by omega)] at hi
        exact Option.noConfusion hi
      have hjL : j < (es.map Prod.fst).length := by
        by_contra hcon
        rw [List.getElem?_eq_none (by omega)] at hj
        exact Option.noConfusion hj
      refine hw i j ti tj hij hwin ?_ ?_
      · rw [List.map_append, List.getElem?_append_left (by simpa using hiL)]
        exact hi
      · rw [List.map_append, List.getElem?_append_left (by simpa using hjL)]
        exact hj
    have hrun : runCollector retention (es ++ [e])
        = storeMetrics retention e.1 (runCollector retention es) e.2 := by
      simp [runCollector, List.foldl_append]
    rw [hrun, ih hw']
    simp only [storeMetrics, dequeAppend]
    rw [takeLast_append_one]
    simp only [Prod.mk.eta]
    apply cleanupOldMetrics_of_head
    intro p hp
    simp only [takeLast, List.head?_drop] at hp
    have hplen : (es ++ [e]).length = es.length + 1 := by simp
    rw [hplen] at hp
    have hti : ((es ++ [e]).map Prod.fst)[es.length + 1 -
        METRICS_MAXLEN]? = some p.1 := by
      rw [List.getElem?_map, hp]
      rfl
    have htj : ((es ++ [e]).map Prod.fst)[es.length]? = some e.1 := by
      rw [List.map_append,
        List.getElem?_append_right (by simp), List.length_map]
      simp
    have hbound := hw (es.length + 1 - METRICS_MAXLEN) es.length p.1 e.1
      (by omega) (by omega) hti htj
    omega

/-- C2 (amended): the buffer holds at most `720` samples, evicted
oldest-first; after more than `720` collections with nondecreasing
timestamps on a window-bounded schedule (at most the max-age across any
`720` consecutive collections, e.g. a 5-second cadence against the
3600-second default), `get_recent_metrics` with limit `720` returns
exactly the last `720` samples, oldest first, and the oldest retained
sample is no older than the max-age at the time of the most recent
collection — the age pruning runs at store time; `get_recent_metrics`
itself performs no pruning at read time. -/
theorem c2_ring_buffer_amended {M : Type} (events : List (Nat × M))
    (hw : WindowBounded DEFAULT_RETENTION events)
    (hlen : METRICS_MAXLEN < events.length)
    (hmono : (events.map Prod.fst).Pairwise (· ≤ ·)) :
    (runCollector DEFAULT_RETENTION events).length = METRICS_MAXLEN ∧
      getRecentMetrics (runCollector DEFAULT_RETENTION events)
          METRICS_MAXLEN
        = (events.drop (events.length - METRICS_MAXLEN)).map Prod.snd ∧
      ((runCollector DEFAULT_RETENTION events).map Prod.fst).Pairwise
        (· ≤ ·) ∧
      (∀ p q, (runCollector DEFAULT_RETENTION events).head? = some p →
        events.getLast? = some q → q.1 ≤ p.1 + DEFAULT_RETENTION) := by
  have hchar := runCollector_eq_takeLast DEFAULT_RETENTION events hw
  have hcap : 0 < METRICS_MAXLEN := by norm_num [METRICS_MAXLEN]
  refine ⟨?_, ?_, ?_, ?_⟩
  · rw [hchar, length_takeLast]
    omega
  · rw [getRecentMetrics,
      if_neg (by norm_num [METRICS_MAXLEN] : ¬ (METRICS_MAXLEN = 0)), hchar,
      takeLast_of_le _ _ (by rw [length_takeLast]; omega), takeLast]
  · rw [hchar, takeLast, List.map_drop]
    exact hmono.sublist (List.drop_sublist _ _)
  · intro p q hp hq
    rw [hchar] at hp
    simp only [takeLast, List.head?_drop] at hp
    rw [List.getLast?_eq_getElem?] at hq
    refine hw (events.length - METRICS_MAXLEN) (events.length - 1) p.1 q.1
      (by omega) (by omega) ?_ ?_
    · rw [List.getElem?_map, hp]
      rfl
    · rw [List.getElem?_map, hq]
      rfl

/-- The 5-second-cadence schedule of 721 collections is
window-bounded. -/
theorem windowBounded_range5 :
    WindowBounded DEFAULT_RETENTION
      ((List.range 721).map fun i => ((5 * i : Nat), (0 : Nat))) := by
  intro i j ti tj hij hwin hi hj
  simp only [List.map_map, List.getElem?_map] at hi hj
  rcases hri : (List.range 721)[i]? with _ | v
  · rw [hri] at hi
    exact Option.noConfusion hi
  rcases hrj : (List.range 721)[j]? with _ | w
  · rw [hrj] at hj
    exact Option.noConfusion hj
  have hjlt : j < 721 := by
    by_contra hcon
    rw [List.getElem?_eq_none (by simpa using Nat.le_of_not_lt hcon)] at hrj
    exact Option.noConfusion hrj
  have hilt : i < 721 := by omega
  rw [hri] at hi
  rw [hrj] at hj
  rw [List.getElem?_range hilt] at hri
  rw [List.getElem?_range hjlt] at hrj
  have hvi := Option.some.inj hri
  have hwj := Option.some.inj hrj
  simp at hi hj
  simp only [METRICS_MAXLEN] at hwin
  simp only [DEFAULT_RETENTION]
  omega

/-- Timestamps of the 5-second-cadence schedule are nondecreasing. -/
theorem mono_range5 :
    (((List.range 721).map fun i => ((5 * i : Nat), (0 : Nat))).map
      Prod.fst).Pairwise (· ≤ ·) := by
  simp only [List.map_map]
  refine List.Pairwise.map _ ?_ (List.pairwise_le_range 721)
  intro a b hab
  simp only [Function.comp_apply]
  omega

/-- C2: the claim as stated fails on the code. Run 721 collections at a
5-second cadence (timestamps `0, 5, …, 3600`): `get_recent_metrics`
with limit 720 does return exactly 720 samples, but the oldest retained
sample has timestamp `5`, and at a read performed at wall-clock time
`10000` its age `9995` exceeds the 3600-second max-age — the age bound
holds only at store time, because `get_recent_metrics` performs no
pruning at read time. -/
theorem c2_read_age_counterexample :
    (getRecentMetrics
        (runCollector DEFAULT_RETENTION
          ((List.range 721).map fun i => (5 * i, 0)))
        METRICS_MAXLEN).length = METRICS_MAXLEN ∧
      ¬ (∀ p, (runCollector DEFAULT_RETENTION
          ((List.range 721).map fun i => (5 * i, 0))).head? = some p →
        10000 - p.1 ≤ DEFAULT_RETENTION) := by
  have hchar := runCollector_eq_takeLast DEFAULT_RETENTION _ windowBounded_range5
  have hlen : ((List.range 721).map
      fun i => ((5 * i : Nat), (0 : Nat))).length = 721 := by
    simp
  have hhead : (runCollector DEFAULT_RETENTION
      ((List.range 721).map fun i => ((5 * i : Nat), (0 : Nat)))).head?
      = some (5, 0) := by
    rw [hchar]
    simp only [takeLast, List.head?_drop, hlen]
    rw [List.getElem?_map, List.getElem?_range (by norm_num [METRICS_MAXLEN])]
    norm_num [METRICS_MAXLEN]
  constructor
  · rw [getRecentMetrics,
      if_neg (by norm_num [METRICS_MAXLEN] : ¬ (METRICS_MAXLEN = 0)), hchar,
      takeLast_of_le _ _ (by rw [length_takeLast, hlen]; norm_num
        [METRICS_MAXLEN]), List.length_map, length_takeLast, hlen]
    norm_num [METRICS_MAXLEN]
  · intro hcl
    have := hcl (5, 0) hhead
    norm_num [DEFAULT_RETENTION] at this

/-- Witness for C2 (amended) at a concrete run: 721 collections at a
5-second cadence leave a buffer of exactly 720 samples. -/
theorem c2_ring_buffer_amended_witness :
    (runCollector DEFAULT_RETENTION
        ((List.range 721).map fun i => ((5 * i : Nat), (0 : Nat)))).length
      = METRICS_MAXLEN := by
  exact (c2_ring_buffer_amended _ windowBounded_range5
    (by simp [METRICS_MAXLEN]) mono_range5).1

end MineCP
